import Mathlib

/-!
# orch: concurrent fan-out of one request to several text-generation providers

A shallow embedding of `internal/orch` (types.go, orchestrator.go and the three
provider files) and of the deadline computation of `cmd/orchd/main.go`, together
with theorems about the batched engine `Run`, the streaming engine `RunStream`,
the providers' `Call` methods and the duration handed to `WithTimeout`.

Modelling conventions.

* Go `string` is `String`; Go `int` is `Int`; a Go `error` value is
  `Option String` (`none` is `nil`, `some m` is an error whose `Error()` is `m`).
* Go `int` is taken as 64 bits wide; where an operation can overflow its result is
  wrapped by `wrapInt64`.
* `float64` (only `ModelConfig.Temperature`) is represented by `Rat`: the code
  only copies it and compares it with zero.
* Everything outside the repository that a provider touches (the process
  environment, `encoding/json`, `net/http`) is a field of `World`. Every
  goroutine sees its own `World`, so two calls with the same configuration may
  behave differently.
* Goroutines are modelled by the order in which they finish: `Run` and
  `RunStream` take that completion order as an argument, and the theorems
  quantify over it.
-/

namespace Orch

/-! ## types.go -/

/-- One requested backend invocation (`ModelConfig` in types.go). -/
structure ModelConfig where
  Name : String
  Provider : String
  Model : String
  APIKey : String
  Endpoint : String
  Temperature : Rat
  MaxTokens : Int
  deriving DecidableEq, Repr

/-- The unit of work submitted to the engine (`Request` in types.go). -/
structure Request where
  Prompt : String
  Code : String
  Models : List ModelConfig
  TimeoutSeconds : Int
  Stream : Bool
  deriving DecidableEq, Repr

/-- Outcome of one configured model (`ModelResult` in types.go). -/
structure ModelResult where
  Name : String
  Provider : String
  Text : String
  Error : String
  deriving DecidableEq, Repr

/-- The batched output (`Response` in types.go). -/
structure Response where
  Results : List ModelResult
  deriving DecidableEq, Repr

/-- The zero value of `ModelResult`, which `make([]ModelResult, n)` fills the slice with. -/
def ModelResult.zero : ModelResult :=
  { Name := "", Provider := "", Text := "", Error := "" }

/-! ## The context and the outside world -/

/-- A `context.Context`, reduced to its cancellation signal: `cancelAt` is the
logical time at which the `Done` channel is closed, `none` when the context is
never cancelled during the run. -/
structure Context where
  cancelAt : Option Nat
  deriving DecidableEq, Repr

/-- Whether `ctx.Done()` is ready to be received from at logical time `t`. -/
def Context.done (ctx : Context) (t : Nat) : Bool :=
  match ctx.cancelAt with
  | none => false
  | some c => decide (c ≤ t)

/-- An outbound HTTP request as built by `http.NewRequestWithContext` followed by `Header.Set`. -/
structure HTTPRequest where
  Method : String
  URL : String
  Header : List (String × String)
  Body : String
  deriving DecidableEq, Repr

/-- What `Call` hands back: the `(string, error)` pair of the Go signature, and the
log of the requests that were passed to `httpClient.Do`. -/
structure CallResult where
  text : String
  err : Option String
  sent : List HTTPRequest
  deriving DecidableEq, Repr

/-- The `Provider` interface: its single method `Call(ctx, cfg, prompt, code)`. The
first argument is the state of the outside world the call runs in. -/
abbrev Provider (W : Type) := W → Context → ModelConfig → String → String → CallResult

/-- The provider registry (`providerRegistry`), read through `getProvider`. A missing
key yields the nil interface value, which is `none`. -/
abbrev Registry (W : Type) := String → Option (Provider W)

/-- Registry lookup (`getProvider` in orchestrator.go). -/
def getProvider {W : Type} (providerRegistry : Registry W) (name : String) : Option (Provider W) :=
  providerRegistry name

/-- Registration (`registerProvider` in orchestrator.go): `providerRegistry[name] = p`. -/
def registerProvider {W : Type} (providerRegistry : Registry W) (name : String) (p : Provider W) :
    Registry W :=
  fun n => if n = name then some p else providerRegistry n

/-! ## orchestrator.go: batched mode -/

/-- The body of the goroutine that `Run` starts for `cfg` (orchestrator.go lines 33-56),
as the value it stores in its slot `results[i]`. -/
def runGoroutine {W : Type} (reg : Registry W) (w : W) (ctx : Context) (req : Request)
    (cfg : ModelConfig) : ModelResult :=
  let res : ModelResult := { Name := cfg.Name, Provider := cfg.Provider, Text := "", Error := "" }
  match getProvider reg cfg.Provider with
  | none => { res with Error := "unknown provider: " ++ cfg.Provider }
  | some p =>
    let out := p w ctx cfg req.Prompt req.Code
    match out.err with
    | some e => { res with Error := e }
    | none => { res with Text := out.text }

/-- One goroutine of `Run` finishing: task `i` stores its result in `results[i]`. An
index that names no model starts no goroutine and stores nothing. -/
def runStore {W : Type} (reg : Registry W) (worlds : Nat → W) (ctx : Context) (req : Request)
    (results : List ModelResult) (i : Nat) : List ModelResult :=
  match req.Models[i]? with
  | none => results
  | some cfg => results.set i (runGoroutine reg (worlds i) ctx req cfg)

/-- Batched orchestration (`Run` in orchestrator.go). `order` is the order in which the
goroutines finish; `wg.Wait()` returns once all of them have, that is, when `order`
has gone through every index of `req.Models`. -/
def Run {W : Type} (reg : Registry W) (worlds : Nat → W) (ctx : Context) (req : Request)
    (order : List Nat) : Response :=
  let results := List.replicate req.Models.length ModelResult.zero
  { Results := order.foldl (runStore reg worlds ctx req) results }

/-! ## orchestrator.go: streaming mode -/

/-- A value handed to `enc.Encode` in `RunStream`: either a `streamEvent` (the tag
`Event` with the embedded `ModelResult`), which becomes one JSON line, or the
anonymous struct that has the field `Event` only. -/
inductive Encoded where
  | streamEvent (Event : String) (res : ModelResult)
  | bare (Event : String)
  deriving DecidableEq, Repr

/-- The value of the JSON key `event` of an encoded line. -/
def Encoded.Event : Encoded → String
  | .streamEvent ev _ => ev
  | .bare ev => ev

/-- The `ModelResult` carried by an encoded line, if any. -/
def Encoded.result : Encoded → Option ModelResult
  | .streamEvent _ res => some res
  | .bare _ => none

/-- One call of `enc.Encode`: the value passed and the error returned. -/
structure WriteAttempt where
  value : Encoded
  err : Option String
  deriving DecidableEq, Repr

/-- The values that reached the sink: those whose write returned no error. -/
def written (log : List WriteAttempt) : List Encoded :=
  (log.filter (fun a => a.err.isNone)).map (fun a => a.value)

/-- The sink `w io.Writer` seen through `json.NewEncoder(w).Encode`: given what has been
written so far and the next value, the error of that write (`none` when it is accepted). -/
abbrev Writer := List Encoded → Encoded → Option String

/-- What a run of `RunStream` did: every `Encode` call in order, and the returned error. -/
structure StreamRun where
  attempts : List WriteAttempt
  err : Option String
  deriving DecidableEq, Repr

/-- The scheduling of the goroutines of `RunStream`: `order` lists the tasks in the order
in which their final `select` is resolved, and `pickDone i` says whether task `i` takes
the `<-ctx.Done()` case when that case is ready. -/
structure Schedule where
  order : List Nat
  pickDone : Nat → Bool

/-- The body of the goroutine that `RunStream` starts for `cfg`, up to its `select`
(orchestrator.go lines 84-99): the result it is about to send. -/
def streamGoroutine {W : Type} (reg : Registry W) (w : W) (ctx : Context) (req : Request)
    (cfg : ModelConfig) : ModelResult :=
  let res : ModelResult := { Name := cfg.Name, Provider := cfg.Provider, Text := "", Error := "" }
  match getProvider reg cfg.Provider with
  | none => { res with Error := "unknown provider: " ++ cfg.Provider }
  | some p =>
    let out := p w ctx cfg req.Prompt req.Code
    match out.err with
    | some e => { res with Error := e }
    | none => { res with Text := out.text }

/-- The `select` of a goroutine resolved at logical time `t` (orchestrator.go lines
101-106): `true` when the result is dropped, which needs `ctx.Done()` to be ready. -/
def selectDrops (ctx : Context) (t : Nat) (pickDone : Bool) : Bool :=
  ctx.done t && pickDone

/-- The sequence of values received from `resultsCh` until it is closed: the results of
the tasks in the order their `select` is resolved (starting at logical time `t`), without
the dropped ones. -/
def resultsCh {W : Type} (reg : Registry W) (worlds : Nat → W) (ctx : Context) (req : Request)
    (pickDone : Nat → Bool) : Nat → List Nat → List ModelResult
  | _, [] => []
  | t, i :: rest =>
    match req.Models[i]? with
    | none => resultsCh reg worlds ctx req pickDone (t + 1) rest
    | some cfg =>
      if selectDrops ctx t (pickDone i) then resultsCh reg worlds ctx req pickDone (t + 1) rest
      else streamGoroutine reg (worlds i) ctx req cfg ::
        resultsCh reg worlds ctx req pickDone (t + 1) rest

/-- The loop `for res := range resultsCh` (orchestrator.go lines 119-127): `log` holds the
`Encode` calls made so far. The error is that of the write that ended the loop early. -/
def drain (w : Writer) : List WriteAttempt → List ModelResult → List WriteAttempt × Option String
  | log, [] => (log, none)
  | log, res :: rest =>
    let ev := Encoded.streamEvent "result" res
    match w (written log) ev with
    | some e => (log ++ [{ value := ev, err := some e }], some e)
    | none => drain w (log ++ [{ value := ev, err := none }]) rest

/-- Streaming orchestration (`RunStream` in orchestrator.go). -/
def RunStream {W : Type} (reg : Registry W) (worlds : Nat → W) (ctx : Context) (req : Request)
    (sched : Schedule) (w : Writer) : StreamRun :=
  match drain w [] (resultsCh reg worlds ctx req sched.pickDone 0 sched.order) with
  | (log, some e) => { attempts := log, err := some e }
  | (log, none) =>
    let ev := Encoded.bare "done"
    match w (written log) ev with
    | some e => { attempts := log ++ [{ value := ev, err := some e }], err := some e }
    | none => { attempts := log ++ [{ value := ev, err := none }], err := none }

/-- The result that task `i` of `RunStream` computes, `none` when the request has no model
at index `i`. -/
def streamTask {W : Type} (reg : Registry W) (worlds : Nat → W) (ctx : Context) (req : Request)
    (i : Nat) : Option ModelResult :=
  (req.Models[i]?).map (streamGoroutine reg (worlds i) ctx req)

/-- The tasks of a schedule whose `select`, resolved from logical time `t` on, sends the
result: the tasks that are not dropped by cancellation. -/
def keptTasks (ctx : Context) (pickDone : Nat → Bool) : Nat → List Nat → List Nat
  | _, [] => []
  | t, i :: rest =>
    if selectDrops ctx t (pickDone i) then keptTasks ctx pickDone (t + 1) rest
    else i :: keptTasks ctx pickDone (t + 1) rest

/-- The log entry of an accepted write of a `result` event carrying `res`. -/
def resultWritten (res : ModelResult) : WriteAttempt :=
  { value := Encoded.streamEvent "result" res, err := none }

/-- The log entry of an accepted write of the `done` event. -/
def doneWritten : WriteAttempt :=
  { value := Encoded.bare "done", err := none }

/-- The log agrees with the sink: the error recorded for each write is what the sink
answers for that value after the values written before it. -/
def Faithful (w : Writer) (log : List WriteAttempt) : Prop :=
  ∀ (k : Nat) (a : WriteAttempt), log[k]? = some a → a.err = w (written (log.take k)) a.value

/-- What is required of a result `r` produced for the configuration `cfg` by a task whose
provider call runs in the world `w`: text and error are not both populated, a non-empty
text comes from a resolved provider whose call returned no error, and a non-empty error
comes from an unresolved provider or from a call that returned an error. -/
def ResultExclusive {W : Type} (reg : Registry W) (w : W) (ctx : Context) (req : Request)
    (cfg : ModelConfig) (r : ModelResult) : Prop :=
  ¬ (r.Text ≠ "" ∧ r.Error ≠ "") ∧
    (r.Text ≠ "" →
      ∃ p, getProvider reg cfg.Provider = some p ∧
        (p w ctx cfg req.Prompt req.Code).err = none) ∧
    (r.Error ≠ "" →
      getProvider reg cfg.Provider = none ∨
        ∃ p, getProvider reg cfg.Provider = some p ∧
          (p w ctx cfg req.Prompt req.Code).err ≠ none)

/-! ## The providers -/

/-- The type `openAIChatMessage` of provider_openai.go. -/
structure openAIChatMessage where
  Role : String
  Content : String
  deriving DecidableEq, Repr

/-- The type `openAIChatRequest` of provider_openai.go. -/
structure openAIChatRequest where
  Model : String
  Messages : List openAIChatMessage
  Temperature : Rat
  MaxTokens : Int
  deriving DecidableEq, Repr

/-- An element of `openAIChatResponse.Choices`. -/
structure openAIChoice where
  Message : openAIChatMessage
  deriving DecidableEq, Repr

/-- The struct behind the pointer `Error` of the hosted APIs' response envelopes. -/
structure envelopeError where
  Message : String
  deriving DecidableEq, Repr

/-- The type `openAIChatResponse` of provider_openai.go; a nil `Error` is `none`. -/
structure openAIChatResponse where
  Choices : List openAIChoice
  Error : Option envelopeError
  deriving DecidableEq, Repr

/-- The type `anthropicMessageContent` of provider_anthroopic.go. -/
structure anthropicMessageContent where
  Role : String
  Content : String
  deriving DecidableEq, Repr

/-- The type `anthropicMessageRequest` of provider_anthroopic.go. -/
structure anthropicMessageRequest where
  Model : String
  MaxTokens : Int
  Temperature : Rat
  Messages : List anthropicMessageContent
  deriving DecidableEq, Repr

/-- An element of `anthropicMessageResponse.Content`. -/
structure anthropicBlock where
  Text : String
  deriving DecidableEq, Repr

/-- The type `anthropicMessageResponse` of provider_anthroopic.go. -/
structure anthropicMessageResponse where
  Content : List anthropicBlock
  Error : Option envelopeError
  deriving DecidableEq, Repr

/-- The type `ollamaChatMessage` of provider_ollama.go (also the shape of the
`Message` field of the response). -/
structure ollamaChatMessage where
  Role : String
  Content : String
  deriving DecidableEq, Repr

/-- The type `ollamaChatRequest` of provider_ollama.go; `Options` is a map that `Call`
leaves nil, here the empty list. -/
structure ollamaChatRequest where
  Model : String
  Messages : List ollamaChatMessage
  Stream : Bool
  Options : List (String × String)
  deriving DecidableEq, Repr

/-- The type `ollamaChatResponse` of provider_ollama.go: `Error` is a plain string. -/
structure ollamaChatResponse where
  Message : ollamaChatMessage
  Error : String
  deriving DecidableEq, Repr

/-- A value passed to `json.Marshal` by one of the providers. -/
inductive RequestBody where
  | openai (body : openAIChatRequest)
  | anthropic (body : anthropicMessageRequest)
  | ollama (body : ollamaChatRequest)
  deriving DecidableEq, Repr

/-- The outside world of a provider call: the process environment (`os.Getenv`),
`json.Marshal`, `http.NewRequestWithContext` (its error for a method and URL),
`httpClient.Do` (the response body, or the transport error) and `json.Decoder.Decode`
into each of the three envelope types. -/
structure World where
  Getenv : String → String
  Marshal : RequestBody → Except String String
  NewRequest : String → String → Option String
  Do : Context → HTTPRequest → Except String String
  DecodeOpenAI : String → Except String openAIChatResponse
  DecodeAnthropic : String → Except String anthropicMessageResponse
  DecodeOllama : String → Except String ollamaChatResponse

/-! ### provider_openai.go -/

/-- The effective content built by `openAIProvider.Call` (provider_openai.go lines 54-57). -/
def openAIContent (prompt code : String) : String :=
  let content := prompt
  if code ≠ "" then content ++ "\n\n```code\n" ++ code ++ "\n```" else content

/-- The first part of `openAIProvider.Call` (provider_openai.go lines 45-96): resolve the
credential, build and send the request, decode the envelope. `Except.error` is an early
`return`; `Except.ok` carries the request that was sent and the decoded envelope. -/
def openAIExchange (w : World) (ctx : Context) (cfg : ModelConfig) (prompt code : String) :
    Except CallResult (HTTPRequest × openAIChatResponse) :=
  let apiKey := cfg.APIKey
  let apiKey := if apiKey = "" then w.Getenv "OPENAI_API_KEY" else apiKey
  if apiKey = "" then
    .error { text := "", err := some "missing OpenAI API key", sent := [] }
  else
    let content := openAIContent prompt code
    let body : openAIChatRequest :=
      { Model := cfg.Model, Messages := [{ Role := "user", Content := content }],
        Temperature := 0, MaxTokens := 0 }
    let body := if cfg.Temperature > 0 then { body with Temperature := cfg.Temperature } else body
    let body := if cfg.MaxTokens > 0 then { body with MaxTokens := cfg.MaxTokens } else body
    match w.Marshal (.openai body) with
    | .error e => .error { text := "", err := some e, sent := [] }
    | .ok data =>
      let endpoint := cfg.Endpoint
      let endpoint :=
        if endpoint = "" then "https://api.openai.com/v1/chat/completions" else endpoint
      match w.NewRequest "POST" endpoint with
      | some e => .error { text := "", err := some e, sent := [] }
      | none =>
        let req : HTTPRequest :=
          { Method := "POST", URL := endpoint,
            Header := [("Content-Type", "application/json"), ("Authorization", "Bearer " ++ apiKey)],
            Body := data }
        match w.Do ctx req with
        | .error e => .error { text := "", err := some e, sent := [req] }
        | .ok respBody =>
          match w.DecodeOpenAI respBody with
          | .error e => .error { text := "", err := some e, sent := [req] }
          | .ok decoded => .ok (req, decoded)

/-- The last part of `openAIProvider.Call` (provider_openai.go lines 98-106): the returned
`(string, error)` for a decoded envelope. -/
def openAIAnswer (decoded : openAIChatResponse) : String × Option String :=
  match decoded.Error with
  | some e => ("", some ("openai error: " ++ e.Message))
  | none =>
    match decoded.Choices with
    | [] => ("", some "openai: no choices in response")
    | c :: _ => (c.Message.Content, none)

/-- The method `openAIProvider.Call` of provider_openai.go. -/
def openAIProvider.Call : Provider World := fun w ctx cfg prompt code =>
  match openAIExchange w ctx cfg prompt code with
  | .error r => r
  | .ok (req, decoded) =>
    { text := (openAIAnswer decoded).1, err := (openAIAnswer decoded).2, sent := [req] }

/-! ### provider_anthroopic.go -/

/-- The effective content built by `anthropicProvider.Call` (provider_anthroopic.go lines 54-57). -/
def anthropicContent (prompt code : String) : String :=
  let content := prompt
  if code ≠ "" then content ++ "\n\n```code\n" ++ code ++ "\n```" else content

/-- The first part of `anthropicProvider.Call` (provider_anthroopic.go lines 45-103). -/
def anthropicExchange (w : World) (ctx : Context) (cfg : ModelConfig) (prompt code : String) :
    Except CallResult (HTTPRequest × anthropicMessageResponse) :=
  let apiKey := cfg.APIKey
  let apiKey := if apiKey = "" then w.Getenv "ANTHROPIC_API_KEY" else apiKey
  if apiKey = "" then
    .error { text := "", err := some "missing Anthropic API key", sent := [] }
  else
    let content := anthropicContent prompt code
    let maxTokens := cfg.MaxTokens
    let maxTokens := if maxTokens ≤ 0 then 2048 else maxTokens
    let body : anthropicMessageRequest :=
      { Model := cfg.Model, MaxTokens := maxTokens, Temperature := 0,
        Messages := [{ Role := "user", Content := content }] }
    let body := if cfg.Temperature > 0 then { body with Temperature := cfg.Temperature } else body
    match w.Marshal (.anthropic body) with
    | .error e => .error { text := "", err := some e, sent := [] }
    | .ok data =>
      let endpoint := cfg.Endpoint
      let endpoint := if endpoint = "" then "https://api.anthropic.com/v1/messages" else endpoint
      match w.NewRequest "POST" endpoint with
      | some e => .error { text := "", err := some e, sent := [] }
      | none =>
        let req : HTTPRequest :=
          { Method := "POST", URL := endpoint,
            Header := [("Content-Type", "application/json"), ("x-api-key", apiKey),
              ("anthropic-version", "2023-06-01")],
            Body := data }
        match w.Do ctx req with
        | .error e => .error { text := "", err := some e, sent := [req] }
        | .ok respBody =>
          match w.DecodeAnthropic respBody with
          | .error e => .error { text := "", err := some e, sent := [req] }
          | .ok decoded => .ok (req, decoded)

/-- The last part of `anthropicProvider.Call` (provider_anthroopic.go lines 105-112). -/
def anthropicAnswer (decoded : anthropicMessageResponse) : String × Option String :=
  match decoded.Error with
  | some e => ("", some ("anthropic error: " ++ e.Message))
  | none =>
    match decoded.Content with
    | [] => ("", some "anthropic: no content in response")
    | c :: _ => (c.Text, none)

/-- The method `anthropicProvider.Call` of provider_anthroopic.go. -/
def anthropicProvider.Call : Provider World := fun w ctx cfg prompt code =>
  match anthropicExchange w ctx cfg prompt code with
  | .error r => r
  | .ok (req, decoded) =>
    { text := (anthropicAnswer decoded).1, err := (anthropicAnswer decoded).2, sent := [req] }

/-! ### provider_ollama.go -/

/-- The effective content built by `ollamaProvider.Call` (provider_ollama.go lines 43-46). -/
def ollamaContent (prompt code : String) : String :=
  let content := prompt
  if code ≠ "" then content ++ "\n\n```code\n" ++ code ++ "\n```" else content

/-- The first part of `ollamaProvider.Call` (provider_ollama.go lines 42-81). -/
def ollamaExchange (w : World) (ctx : Context) (cfg : ModelConfig) (prompt code : String) :
    Except CallResult (HTTPRequest × ollamaChatResponse) :=
  let content := ollamaContent prompt code
  let body : ollamaChatRequest :=
    { Model := cfg.Model, Messages := [{ Role := "user", Content := content }],
      Stream := false, Options := [] }
  match w.Marshal (.ollama body) with
  | .error e => .error { text := "", err := some e, sent := [] }
  | .ok data =>
    let endpoint := cfg.Endpoint
    let endpoint := if endpoint = "" then "http://127.0.0.1:11434/api/chat" else endpoint
    match w.NewRequest "POST" endpoint with
    | some e => .error { text := "", err := some e, sent := [] }
    | none =>
      let req : HTTPRequest :=
        { Method := "POST", URL := endpoint,
          Header := [("Content-Type", "application/json")], Body := data }
      match w.Do ctx req with
      | .error e => .error { text := "", err := some e, sent := [req] }
      | .ok respBody =>
        match w.DecodeOllama respBody with
        | .error e => .error { text := "", err := some e, sent := [req] }
        | .ok decoded => .ok (req, decoded)

/-- The last part of `ollamaProvider.Call` (provider_ollama.go lines 82-85). -/
def ollamaAnswer (decoded : ollamaChatResponse) : String × Option String :=
  if decoded.Error ≠ "" then ("", some ("ollama error: " ++ decoded.Error))
  else (decoded.Message.Content, none)

/-- The method `ollamaProvider.Call` of provider_ollama.go. -/
def ollamaProvider.Call : Provider World := fun w ctx cfg prompt code =>
  match ollamaExchange w ctx cfg prompt code with
  | .error r => r
  | .ok (req, decoded) =>
    { text := (ollamaAnswer decoded).1, err := (ollamaAnswer decoded).2, sent := [req] }

/-- The registry after the three `init` functions have run. -/
def providerRegistry : Registry World :=
  registerProvider
    (registerProvider (registerProvider (fun _ => none) "anthropic" anthropicProvider.Call)
      "ollama" ollamaProvider.Call)
    "openai" openAIProvider.Call

/-! ## Sample data -/

/-- A world in which nothing is configured and the network is unreachable. -/
def World.offline : World :=
  { Getenv := fun _ => ""
    Marshal := fun _ => .ok "body"
    NewRequest := fun _ _ => none
    Do := fun _ _ => .error "dial tcp: connection refused"
    DecodeOpenAI := fun _ => .error "EOF"
    DecodeAnthropic := fun _ => .error "EOF"
    DecodeOllama := fun _ => .error "EOF" }

/-- A model configuration with only the three required fields set. -/
def ModelConfig.basic (name provider model : String) : ModelConfig :=
  { Name := name, Provider := provider, Model := model, APIKey := "", Endpoint := "",
    Temperature := 0, MaxTokens := 0 }

/-- A stub provider that always answers `ok`. -/
def stubOK : Provider Unit := fun _ _ _ _ _ => { text := "ok", err := none, sent := [] }

/-- A stub provider that always fails with `boom`. -/
def stubFail : Provider Unit := fun _ _ _ _ _ => { text := "", err := some "boom", sent := [] }

/-- A registry holding the two stubs under `stubok` and `stubfail`. -/
def stubRegistry : Registry Unit :=
  registerProvider (registerProvider (fun _ => none) "stubok" stubOK) "stubfail" stubFail

/-- The request of the spec's scenario: one stub model and one unknown provider. -/
def scenarioRequest : Request :=
  { Prompt := "hi", Code := "",
    Models := [ModelConfig.basic "a" "stubok" "x", ModelConfig.basic "b" "unknown" "y"],
    TimeoutSeconds := 1, Stream := false }

/-- The scenario with the local provider in place of the stub, for the real registry. -/
def localScenarioRequest : Request :=
  { Prompt := "hi", Code := "",
    Models := [ModelConfig.basic "a" "ollama" "x", ModelConfig.basic "b" "unknown" "y"],
    TimeoutSeconds := 1, Stream := false }

/-- A context that is never cancelled. -/
def Context.background : Context := { cancelAt := none }

/-- A sink that accepts every write, such as a `bytes.Buffer`. -/
def Writer.buffer : Writer := fun _ _ => none

/-- A sink that accepts `n` writes and then fails with `broken pipe`. -/
def Writer.failAfter (n : Nat) : Writer :=
  fun hist _ => if hist.length < n then none else some "broken pipe"

/-- The value of a signed 64-bit operation whose exact result is `x`: Go integer
arithmetic wraps around in two's complement. -/
def wrapInt64 (x : Int) : Int :=
  (x + 9223372036854775808) % 18446744073709551616 - 9223372036854775808

/-- Whether `x` is a value of Go's `int` on a 64-bit platform, which is what
`json.Unmarshal` can store in `Request.TimeoutSeconds`. -/
def isInt64 (x : Int) : Prop :=
  -9223372036854775808 ≤ x ∧ x ≤ 9223372036854775807

/-- The constant `time.Second`, a `time.Duration` counted in nanoseconds. -/
def Second : Int := 1000000000

/-- The duration that `main` hands to `orch.WithTimeout` (main.go lines 250-254): the
default of 30 replaces a non-positive `TimeoutSeconds`, then
`time.Duration(req.TimeoutSeconds) * time.Second` is computed on 64 bits. -/
def mainTimeout (req : Request) : Int :=
  let req := if req.TimeoutSeconds ≤ 0 then { req with TimeoutSeconds := 30 } else req
  wrapInt64 (req.TimeoutSeconds * Second)

/-- A request without models that asks for the given number of seconds. -/
def Request.withTimeout (seconds : Int) : Request :=
  { Prompt := "hi", Code := "", Models := [], TimeoutSeconds := seconds, Stream := false }

/-! ## Theorems -/

/-! ### Batched mode: what each slot holds -/

/-- Storing a goroutine's result keeps the length of the slice. -/
theorem runStore_length {W : Type} (reg : Registry W) (worlds : Nat → W) (ctx : Context)
    (req : Request) (results : List ModelResult) (i : Nat) :
    (runStore reg worlds ctx req results i).length = results.length := by
  unfold runStore
  split <;> simp

/-- The slice keeps its length while the goroutines finish. -/
theorem foldl_runStore_length {W : Type} (reg : Registry W) (worlds : Nat → W) (ctx : Context)
    (req : Request) (order : List Nat) (results : List ModelResult) :
    (order.foldl (runStore reg worlds ctx req) results).length = results.length := by
  induction order generalizing results with
  | nil => rfl
  | cons i rest ih => rw [List.foldl_cons, ih, runStore_length]

/-- Slot `j` after one goroutine has finished. -/
theorem runStore_getElem? {W : Type} (reg : Registry W) (worlds : Nat → W) (ctx : Context)
    (req : Request) (results : List ModelResult) (hlen : results.length = req.Models.length)
    (i j : Nat) :
    (runStore reg worlds ctx req results i)[j]? =
      if j = i then (req.Models[j]?).map (runGoroutine reg (worlds j) ctx req)
      else results[j]? := by
  unfold runStore
  by_cases hji : j = i
  · subst hji
    rw [if_pos rfl]
    cases hm : req.Models[j]? with
    | none =>
      have hge : req.Models.length ≤ j := List.getElem?_eq_none_iff.mp hm
      simp only [Option.map_none']
      exact List.getElem?_eq_none_iff.mpr (by omega)
    | some cfg =>
      have hlt : j < req.Models.length := by
        rcases List.getElem?_eq_some_iff.mp hm with ⟨h, _⟩
        exact h
      simp only [Option.map_some']
      rw [List.getElem?_set]
      simp [hlen, hlt]
  · rw [if_neg hji]
    cases hm : req.Models[i]? with
    | none => rfl
    | some cfg =>
      simp only
      exact List.getElem?_set_ne (fun h => hji h.symm)

/-- Slot `j` after the goroutines listed in `order` have finished: the result of task `j`
when it is among them, and the previous content otherwise. -/
theorem foldl_runStore_getElem? {W : Type} (reg : Registry W) (worlds : Nat → W) (ctx : Context)
    (req : Request) (order : List Nat) (results : List ModelResult)
    (hlen : results.length = req.Models.length) (j : Nat) :
    (order.foldl (runStore reg worlds ctx req) results)[j]? =
      if j ∈ order then (req.Models[j]?).map (runGoroutine reg (worlds j) ctx req)
      else results[j]? := by
  induction order generalizing results with
  | nil => simp
  | cons i rest ih =>
    rw [List.foldl_cons, ih _ (by rw [runStore_length, hlen])]
    by_cases hj : j ∈ rest
    · simp [hj]
    · rw [if_neg hj, runStore_getElem? reg worlds ctx req results hlen]
      by_cases hji : j = i
      · simp [hji]
      · simp [hji, hj]

/-- Once every goroutine has finished, slot `j` of the response holds the result of task `j`. -/
theorem Run_getElem? {W : Type} (reg : Registry W) (worlds : Nat → W) (ctx : Context)
    (req : Request) (order : List Nat) (hperm : order.Perm (List.range req.Models.length))
    (j : Nat) :
    (Run reg worlds ctx req order).Results[j]? =
      (req.Models[j]?).map (runGoroutine reg (worlds j) ctx req) := by
  unfold Run
  simp only
  rw [foldl_runStore_getElem? reg worlds ctx req order _ (by simp)]
  by_cases hj : j ∈ order
  · rw [if_pos hj]
  · rw [if_neg hj]
    have hge : req.Models.length ≤ j := by
      by_contra hlt
      exact hj ((hperm.mem_iff).mpr (List.mem_range.mpr (by omega)))
    rw [List.getElem?_eq_none_iff.mpr hge, List.getElem?_eq_none_iff.mpr (by simpa using hge)]
    rfl

/-- The response has one slot per configured model, whatever the completion order. -/
theorem Run_length {W : Type} (reg : Registry W) (worlds : Nat → W) (ctx : Context)
    (req : Request) (order : List Nat) :
    (Run reg worlds ctx req order).Results.length = req.Models.length := by
  unfold Run
  simp only
  rw [foldl_runStore_length]
  simp

/-- The goroutine copies the label and the provider identifier of its configuration. -/
theorem runGoroutine_name_provider {W : Type} (reg : Registry W) (w : W) (ctx : Context)
    (req : Request) (cfg : ModelConfig) :
    (runGoroutine reg w ctx req cfg).Name = cfg.Name ∧
      (runGoroutine reg w ctx req cfg).Provider = cfg.Provider := by
  unfold runGoroutine
  simp only
  split
  · exact ⟨rfl, rfl⟩
  · split <;> exact ⟨rfl, rfl⟩

/-- C1: for every request, registry, provider behaviour (the worlds the calls run in) and
completion order of the goroutines, `Run` returns as many results as there are configured
models, and `results[i]` carries the name and the provider of `models[i]`. -/
theorem Run_results_index_aligned {W : Type} (reg : Registry W) (worlds : Nat → W)
    (ctx : Context) (req : Request) (order : List Nat)
    (hperm : order.Perm (List.range req.Models.length)) :
    (Run reg worlds ctx req order).Results.length = req.Models.length ∧
      ∀ (i : Nat) (hr : i < (Run reg worlds ctx req order).Results.length)
        (hm : i < req.Models.length),
        ((Run reg worlds ctx req order).Results[i]).Name = (req.Models[i]).Name ∧
          ((Run reg worlds ctx req order).Results[i]).Provider = (req.Models[i]).Provider := by
  refine ⟨Run_length reg worlds ctx req order, ?_⟩
  intro i hr hm
  have h := Run_getElem? reg worlds ctx req order hperm i
  rw [List.getElem?_eq_getElem hr, List.getElem?_eq_getElem hm, Option.map_some'] at h
  rw [Option.some.inj h]
  exact runGoroutine_name_provider reg (worlds i) ctx req (req.Models[i])

/-- C1 at the scenario request, with the second goroutine finishing first. -/
theorem Run_results_index_aligned_witness :
    [1, 0].Perm (List.range scenarioRequest.Models.length) ∧
      ((Run stubRegistry (fun _ => ()) Context.background scenarioRequest [1, 0]).Results.length
          = scenarioRequest.Models.length ∧
        ∀ (i : Nat)
          (_hr : i < (Run stubRegistry (fun _ => ()) Context.background scenarioRequest
            [1, 0]).Results.length)
          (hm : i < scenarioRequest.Models.length),
          ((Run stubRegistry (fun _ => ()) Context.background scenarioRequest
              [1, 0]).Results[i]).Name = (scenarioRequest.Models[i]).Name ∧
            ((Run stubRegistry (fun _ => ()) Context.background scenarioRequest
              [1, 0]).Results[i]).Provider = (scenarioRequest.Models[i]).Provider) :=
  ⟨by decide, Run_results_index_aligned stubRegistry (fun _ => ()) Context.background
    scenarioRequest [1, 0] (by decide)⟩

/-- C2: for every request and completion order, a slot whose provider identifier has no
entry in the registry (`reg` maps it to `none`) holds an empty text and the error
`unknown provider: ` followed by the identifier, and every slot whose identifier the
registry maps to a provider `p` holds the outcome of its own call of `p`: the returned
text (and no error) on success, the error message (and no text) on failure. -/
theorem Run_unknown_provider_isolated {W : Type} (reg : Registry W) (worlds : Nat → W)
    (ctx : Context) (req : Request) (order : List Nat)
    (hperm : order.Perm (List.range req.Models.length)) :
    (∀ (i : Nat) (cfg : ModelConfig), req.Models[i]? = some cfg →
        reg cfg.Provider = none →
        (Run reg worlds ctx req order).Results[i]? =
          some { Name := cfg.Name, Provider := cfg.Provider, Text := "",
                 Error := "unknown provider: " ++ cfg.Provider }) ∧
      (∀ (j : Nat) (cfg : ModelConfig) (p : Provider W), req.Models[j]? = some cfg →
        reg cfg.Provider = some p →
        (Run reg worlds ctx req order).Results[j]? =
          some (match (p (worlds j) ctx cfg req.Prompt req.Code).err with
            | none =>
              { Name := cfg.Name, Provider := cfg.Provider,
                Text := (p (worlds j) ctx cfg req.Prompt req.Code).text, Error := "" }
            | some e => { Name := cfg.Name, Provider := cfg.Provider, Text := "", Error := e })) := by
  constructor
  · intro i cfg hcfg hnone
    rw [Run_getElem? reg worlds ctx req order hperm i, hcfg, Option.map_some']
    unfold runGoroutine getProvider
    simp only [hnone]
  · intro j cfg p hcfg hsome
    rw [Run_getElem? reg worlds ctx req order hperm j, hcfg, Option.map_some']
    unfold runGoroutine getProvider
    simp only [hsome]
    cases (p (worlds j) ctx cfg req.Prompt req.Code).err <;> rfl

/-- C2 at the scenario request, for the stub registry and for the real one: slot 1 names
the unregistered provider `unknown`; slot 0 holds the answer of the stub, and on the real
registry the transport error of the unreachable local provider. -/
theorem Run_unknown_provider_isolated_witness :
    ((Run stubRegistry (fun _ => ()) Context.background scenarioRequest [1, 0]).Results[1]? =
        some { Name := "b", Provider := "unknown", Text := "",
               Error := "unknown provider: unknown" } ∧
      (Run stubRegistry (fun _ => ()) Context.background scenarioRequest [1, 0]).Results[0]? =
        some { Name := "a", Provider := "stubok", Text := "ok", Error := "" }) ∧
    ((Run providerRegistry (fun _ => World.offline) Context.background localScenarioRequest
          [1, 0]).Results[1]? =
        some { Name := "b", Provider := "unknown", Text := "",
               Error := "unknown provider: unknown" } ∧
      (Run providerRegistry (fun _ => World.offline) Context.background localScenarioRequest
          [1, 0]).Results[0]? =
        some { Name := "a", Provider := "ollama", Text := "",
               Error := "dial tcp: connection refused" }) :=
  ⟨⟨(Run_unknown_provider_isolated stubRegistry (fun _ => ()) Context.background
        scenarioRequest [1, 0] (by decide)).1 1 (ModelConfig.basic "b" "unknown" "y") rfl rfl,
     (Run_unknown_provider_isolated stubRegistry (fun _ => ()) Context.background
        scenarioRequest [1, 0] (by decide)).2 0 (ModelConfig.basic "a" "stubok" "x") stubOK
        rfl rfl⟩,
   ⟨(Run_unknown_provider_isolated providerRegistry (fun _ => World.offline) Context.background
        localScenarioRequest [1, 0] (by decide)).1 1 (ModelConfig.basic "b" "unknown" "y")
        rfl rfl,
     (Run_unknown_provider_isolated providerRegistry (fun _ => World.offline) Context.background
        localScenarioRequest [1, 0] (by decide)).2 0 (ModelConfig.basic "a" "ollama" "x")
        ollamaProvider.Call rfl rfl⟩⟩

/-! ### Streaming mode -/

/-- With no configured model nothing is ever sent on the channel. -/
theorem resultsCh_nil_models {W : Type} (reg : Registry W) (worlds : Nat → W) (ctx : Context)
    (req : Request) (pickDone : Nat → Bool) (hm : req.Models = []) (t : Nat) (order : List Nat) :
    resultsCh reg worlds ctx req pickDone t order = [] := by
  induction order generalizing t with
  | nil => rfl
  | cons i rest ih =>
    unfold resultsCh
    simp [hm, ih]

/-- With no configured model the slice stays empty. -/
theorem foldl_runStore_nil_models {W : Type} (reg : Registry W) (worlds : Nat → W)
    (ctx : Context) (req : Request) (hm : req.Models = []) (order : List Nat)
    (results : List ModelResult) :
    order.foldl (runStore reg worlds ctx req) results = results := by
  induction order generalizing results with
  | nil => rfl
  | cons i rest ih =>
    rw [List.foldl_cons, ih]
    unfold runStore
    simp [hm]

/-- C3: for every request whose model list is empty, `Run` returns a response with no
results, and `RunStream`, writing to a sink that accepts the write, makes exactly one
write, the `done` event, and returns no error. -/
theorem empty_models_run_and_stream {W : Type} (reg : Registry W) (worlds : Nat → W)
    (ctx : Context) (req : Request) (order : List Nat) (sched : Schedule) (w : Writer)
    (hm : req.Models = []) (hw : w [] (Encoded.bare "done") = none) :
    (Run reg worlds ctx req order).Results = [] ∧
      RunStream reg worlds ctx req sched w =
        { attempts := [{ value := Encoded.bare "done", err := none }], err := none } := by
  constructor
  · unfold Run
    simp only
    rw [foldl_runStore_nil_models reg worlds ctx req hm]
    simp [hm]
  · unfold RunStream
    rw [resultsCh_nil_models reg worlds ctx req sched.pickDone hm]
    simp [drain, written, hw]

/-- C3 at the request of the repository's tests, with the real registry and a buffer. -/
theorem empty_models_run_and_stream_witness :
    (Run providerRegistry (fun _ => World.offline) Context.background
        { Prompt := "explain this", Code := "fmt.Println(\"hello\")", Models := [],
          TimeoutSeconds := 1, Stream := true } []).Results = [] ∧
      RunStream providerRegistry (fun _ => World.offline) Context.background
        { Prompt := "explain this", Code := "fmt.Println(\"hello\")", Models := [],
          TimeoutSeconds := 1, Stream := true }
        { order := [], pickDone := fun _ => false } Writer.buffer =
        { attempts := [{ value := Encoded.bare "done", err := none }], err := none } :=
  empty_models_run_and_stream providerRegistry (fun _ => World.offline) Context.background
    { Prompt := "explain this", Code := "fmt.Println(\"hello\")", Models := [],
      TimeoutSeconds := 1, Stream := true } [] { order := [], pickDone := fun _ => false }
    Writer.buffer rfl rfl

/-- A sink that accepts every write lets the loop write one `result` event per received value. -/
theorem drain_accepting (w : Writer) (hw : ∀ hist ev, w hist ev = none)
    (log : List WriteAttempt) (rs : List ModelResult) :
    drain w log rs = (log ++ rs.map resultWritten, none) := by
  induction rs generalizing log with
  | nil => simp [drain]
  | cons r rest ih =>
    unfold drain
    simp only [hw]
    rw [ih]
    simp [resultWritten]

/-- What is received from the channel: the results of the tasks that are not dropped. -/
theorem resultsCh_eq_keptTasks {W : Type} (reg : Registry W) (worlds : Nat → W) (ctx : Context)
    (req : Request) (pickDone : Nat → Bool) (t : Nat) (order : List Nat) :
    resultsCh reg worlds ctx req pickDone t order =
      (keptTasks ctx pickDone t order).filterMap (streamTask reg worlds ctx req) := by
  induction order generalizing t with
  | nil => rfl
  | cons i rest ih =>
    unfold resultsCh keptTasks
    cases hm : req.Models[i]? with
    | none =>
      by_cases hsel : selectDrops ctx t (pickDone i) = true
      · simp [hsel, ih]
      · simp [hsel, ih, streamTask, hm]
    | some cfg =>
      by_cases hsel : selectDrops ctx t (pickDone i) = true
      · simp [hsel, ih]
      · simp [hsel, ih, streamTask, hm]

/-- The tasks that are not dropped are taken from the schedule, in its order. -/
theorem keptTasks_sublist (ctx : Context) (pickDone : Nat → Bool) (t : Nat) (order : List Nat) :
    (keptTasks ctx pickDone t order).Sublist order := by
  induction order generalizing t with
  | nil => exact List.Sublist.refl _
  | cons i rest ih =>
    unfold keptTasks
    split
    · exact (ih (t + 1)).cons i
    · exact (ih (t + 1)).cons₂ i

/-- A scheduled task is left out only when its `select` took the `ctx.Done()` case. -/
theorem keptTasks_dropped (ctx : Context) (pickDone : Nat → Bool) (t : Nat) (order : List Nat)
    (i : Nat) (hi : i ∈ order) (hnot : i ∉ keptTasks ctx pickDone t order) :
    ∃ t', selectDrops ctx t' (pickDone i) = true := by
  induction order generalizing t with
  | nil => simp at hi
  | cons j rest ih =>
    unfold keptTasks at hnot
    by_cases hsel : selectDrops ctx t (pickDone j) = true
    · rw [if_pos hsel] at hnot
      rcases List.mem_cons.mp hi with h | h
      · exact ⟨t, by rw [h]; exact hsel⟩
      · exact ih (t + 1) h hnot
    · rw [if_neg hsel] at hnot
      simp only [List.mem_cons, not_or] at hnot
      rcases List.mem_cons.mp hi with h | h
      · exact absurd h hnot.1
      · exact ih (t + 1) h hnot.2

/-- When the context is never cancelled no task is dropped. -/
theorem keptTasks_of_not_cancelled (ctx : Context) (pickDone : Nat → Bool) (t : Nat)
    (order : List Nat) (hc : ctx.cancelAt = none) :
    keptTasks ctx pickDone t order = order := by
  induction order generalizing t with
  | nil => rfl
  | cons i rest ih =>
    unfold keptTasks
    simp [selectDrops, Context.done, hc, ih]

/-- Every listed task that exists contributes exactly one result. -/
theorem filterMap_streamTask_length {W : Type} (reg : Registry W) (worlds : Nat → W)
    (ctx : Context) (req : Request) (kept : List Nat)
    (h : ∀ i ∈ kept, i < req.Models.length) :
    (kept.filterMap (streamTask reg worlds ctx req)).length = kept.length := by
  induction kept with
  | nil => rfl
  | cons i rest ih =>
    have hi : i < req.Models.length := h i (List.mem_cons_self i rest)
    have hrest : ∀ j ∈ rest, j < req.Models.length := fun j hj => h j (List.mem_cons_of_mem i hj)
    simp [streamTask, List.filterMap_cons, List.getElem?_eq_getElem hi, ih hrest]

/-- In a duplicate-free schedule the tasks that are not dropped are those whose `select`
does not pick `ctx.Done()` or is resolved, at the task's position in the schedule, before
the context is cancelled. -/
theorem keptTasks_eq_filter (ctx : Context) (pickDone : Nat → Bool) (t : Nat) (order : List Nat)
    (hnodup : order.Nodup) :
    keptTasks ctx pickDone t order =
      order.filter (fun i =>
        !(pickDone i && ctx.cancelAt.any (fun c => decide (c ≤ t + order.indexOf i)))) := by
  induction order generalizing t with
  | nil => rfl
  | cons i rest ih =>
    have hi : i ∉ rest := (List.nodup_cons.mp hnodup).1
    have hrest : rest.Nodup := (List.nodup_cons.mp hnodup).2
    have hcongr : rest.filter (fun j =>
          !(pickDone j && ctx.cancelAt.any (fun c => decide (c ≤ t + (i :: rest).indexOf j)))) =
        rest.filter (fun j =>
          !(pickDone j && ctx.cancelAt.any (fun c => decide (c ≤ t + 1 + rest.indexOf j)))) := by
      apply List.filter_congr
      intro j hj
      have hne : i ≠ j := fun h => hi (h ▸ hj)
      rw [List.indexOf_cons_ne _ hne]
      simp only [Nat.succ_eq_add_one]
      have hadd : t + (List.indexOf j rest + 1) = t + 1 + List.indexOf j rest := by omega
      rw [hadd]
    unfold keptTasks
    rw [ih (t + 1) hrest, List.filter_cons, hcongr]
    cases hc : ctx.cancelAt with
    | none => simp [selectDrops, Context.done, hc, Option.any]
    | some c =>
      by_cases hp : pickDone i = true <;> by_cases hle : c ≤ t <;>
        simp [selectDrops, Context.done, hc, Option.any, hp, hle]

/-- The result that the task of a configured model sends: it carries the model's name and
provider, and the error of an unregistered provider or the outcome of the call. -/
theorem streamTask_of_model {W : Type} (reg : Registry W) (worlds : Nat → W) (ctx : Context)
    (req : Request) (i : Nat) (cfg : ModelConfig) (hcfg : req.Models[i]? = some cfg) :
    streamTask reg worlds ctx req i =
      some (match reg cfg.Provider with
        | none =>
          { Name := cfg.Name, Provider := cfg.Provider, Text := "",
            Error := "unknown provider: " ++ cfg.Provider }
        | some p =>
          match (p (worlds i) ctx cfg req.Prompt req.Code).err with
          | none =>
            { Name := cfg.Name, Provider := cfg.Provider,
              Text := (p (worlds i) ctx cfg req.Prompt req.Code).text, Error := "" }
          | some e => { Name := cfg.Name, Provider := cfg.Provider, Text := "", Error := e }) := by
  unfold streamTask streamGoroutine getProvider
  rw [hcfg, Option.map_some']
  cases reg cfg.Provider with
  | none => rfl
  | some p =>
    simp only
    cases (p (worlds i) ctx cfg req.Prompt req.Code).err <;> rfl

/-- C4: for every request, when the sink accepts every write, `RunStream` returns no error
and its writes are: one `result` event for each index of the list `kept`, in completion
order, then one `done` event, and nothing after it. `kept` is duplicate-free and holds
exactly the configured models that are not dropped by cancellation: model `i` is dropped
when its `select` picks `ctx.Done()` (`sched.pickDone i`) and the context was cancelled at
a time `c` no later than the position of `i` in the completion order. The event of model
`i` carries the name and the provider of `models[i]` with the outcome of its task. When
the context is never cancelled `kept` is the whole completion order, a permutation of all
`len(models)` indices. -/
theorem RunStream_result_events_then_done {W : Type} (reg : Registry W) (worlds : Nat → W)
    (ctx : Context) (req : Request) (sched : Schedule) (w : Writer)
    (hw : ∀ hist ev, w hist ev = none)
    (hperm : sched.order.Perm (List.range req.Models.length)) :
    ∃ kept : List Nat,
      kept = sched.order.filter (fun i =>
        !(sched.pickDone i &&
          ctx.cancelAt.any (fun c => decide (c ≤ sched.order.indexOf i)))) ∧
      RunStream reg worlds ctx req sched w =
        { attempts :=
            (kept.filterMap (streamTask reg worlds ctx req)).map
                (fun r => { value := Encoded.streamEvent "result" r, err := none }) ++
              [{ value := Encoded.bare "done", err := none }],
          err := none } ∧
      (kept.filterMap (streamTask reg worlds ctx req)).length = kept.length ∧
      kept.Nodup ∧
      (∀ i, i ∈ kept ↔
        i < req.Models.length ∧
          ¬ (sched.pickDone i = true ∧
            ∃ c, ctx.cancelAt = some c ∧ c ≤ sched.order.indexOf i)) ∧
      (∀ (i : Nat) (cfg : ModelConfig), req.Models[i]? = some cfg →
        streamTask reg worlds ctx req i =
          some (match reg cfg.Provider with
            | none =>
              { Name := cfg.Name, Provider := cfg.Provider, Text := "",
                Error := "unknown provider: " ++ cfg.Provider }
            | some p =>
              match (p (worlds i) ctx cfg req.Prompt req.Code).err with
              | none =>
                { Name := cfg.Name, Provider := cfg.Provider,
                  Text := (p (worlds i) ctx cfg req.Prompt req.Code).text, Error := "" }
              | some e =>
                { Name := cfg.Name, Provider := cfg.Provider, Text := "", Error := e })) ∧
      (ctx.cancelAt = none → kept = sched.order ∧ kept.length = req.Models.length) := by
  have hnodup : sched.order.Nodup := hperm.nodup_iff.mpr (List.nodup_range _)
  have hk := keptTasks_eq_filter ctx sched.pickDone 0 sched.order hnodup
  simp only [Nat.zero_add] at hk
  refine ⟨_, rfl, ?_, ?_, ?_, ?_, ?_, ?_⟩
  · unfold RunStream
    rw [resultsCh_eq_keptTasks, drain_accepting w hw, hk]
    simp [hw, resultWritten]
  · apply filterMap_streamTask_length
    intro i hi
    exact List.mem_range.mp (hperm.mem_iff.mp (List.mem_of_mem_filter hi))
  · exact hnodup.filter _
  · intro i
    rw [List.mem_filter, hperm.mem_iff, List.mem_range]
    cases hc : ctx.cancelAt with
    | none => simp [Option.any]
    | some c =>
      cases hp : sched.pickDone i with
      | false => simp [Option.any]
      | true => simp [Option.any]
  · exact streamTask_of_model reg worlds ctx req
  · intro hc
    have hf : sched.order.filter (fun i =>
        !(sched.pickDone i &&
          ctx.cancelAt.any (fun c => decide (c ≤ sched.order.indexOf i)))) = sched.order := by
      simp [hc, Option.any]
    rw [hf]
    exact ⟨rfl, by rw [hperm.length_eq, List.length_range]⟩

/-- C4 at the scenario request with a buffer as sink, every `select` picking `ctx.Done()`
when it can, and a context cancelled at time 1: the task of the unknown provider, first
in the completion order, is resolved before the cancellation, so its result is written;
the other task is dropped; then `done`. -/
theorem RunStream_result_events_then_done_witness :
    (RunStream stubRegistry (fun _ => ()) { cancelAt := some 1 } scenarioRequest
        { order := [1, 0], pickDone := fun _ => true } Writer.buffer).attempts =
      [{ value := Encoded.streamEvent "result"
          { Name := "b", Provider := "unknown", Text := "",
            Error := "unknown provider: unknown" }, err := none },
        { value := Encoded.bare "done", err := none }] :=
  Exists.elim
    (RunStream_result_events_then_done stubRegistry (fun _ => ()) { cancelAt := some 1 }
      scenarioRequest { order := [1, 0], pickDone := fun _ => true } Writer.buffer
      (fun _ _ => rfl) (by decide))
    (fun kept h => by rw [h.2.1, h.1]; decide)

/-! ### Streaming mode: write failures -/

/-- Appending the next write, with the sink's answer, keeps the log faithful. -/
theorem Faithful.snoc (w : Writer) (log : List WriteAttempt) (ev : Encoded)
    (h : Faithful w log) :
    Faithful w (log ++ [{ value := ev, err := w (written log) ev }]) := by
  intro k a hk
  rcases Nat.lt_trichotomy k log.length with hlt | heq | hgt
  · rw [List.getElem?_append_left hlt] at hk
    rw [List.take_append_of_le_length (Nat.le_of_lt hlt)]
    exact h k a hk
  · subst heq
    rw [List.getElem?_append_right (Nat.le_refl _)] at hk
    simp only [Nat.sub_self, List.getElem?_cons_zero, Option.some.injEq] at hk
    subst hk
    simp
  · rw [List.getElem?_eq_none_iff.mpr (by simp; omega)] at hk
    exact absurd hk (by simp)

/-- The loop over the channel, for any sink: the log stays faithful and holds `result`
events only; when the loop ends normally every write was accepted, and when it ends with
an error the log is accepted writes followed by the single failed one. -/
theorem drain_log (w : Writer) (rs : List ModelResult) (log : List WriteAttempt)
    (hf : Faithful w log) (hok : ∀ a ∈ log, a.err = none)
    (hres : ∀ a ∈ log, a.value.Event = "result") :
    Faithful w (drain w log rs).1 ∧
      (∀ a ∈ (drain w log rs).1, a.value.Event = "result") ∧
      ((drain w log rs).2 = none → ∀ a ∈ (drain w log rs).1, a.err = none) ∧
      (∀ e, (drain w log rs).2 = some e →
        ∃ init last, (drain w log rs).1 = init ++ [last] ∧ (∀ a ∈ init, a.err = none) ∧
          last.err = some e) := by
  induction rs generalizing log with
  | nil =>
    refine ⟨hf, hres, fun _ => hok, ?_⟩
    intro e he
    simp [drain] at he
  | cons r rest ih =>
    have hsnoc := Faithful.snoc w log (Encoded.streamEvent "result" r) hf
    cases hw : w (written log) (Encoded.streamEvent "result" r) with
    | some e =>
      rw [hw] at hsnoc
      have hd : drain w log (r :: rest) =
          (log ++ [{ value := Encoded.streamEvent "result" r, err := some e }], some e) := by
        simp [drain, hw]
      rw [hd]
      refine ⟨hsnoc, ?_, ?_, ?_⟩
      · intro a ha
        rcases List.mem_append.mp ha with ha | ha
        · exact hres a ha
        · rw [List.mem_singleton.mp ha]
          rfl
      · intro h
        simp at h
      · intro e' he'
        simp only [Option.some.injEq] at he'
        subst he'
        exact ⟨log, _, rfl, hok, rfl⟩
    | none =>
      rw [hw] at hsnoc
      have hd : drain w log (r :: rest) =
          drain w (log ++ [{ value := Encoded.streamEvent "result" r, err := none }]) rest := by
        simp [drain, hw]
      rw [hd]
      refine ih _ hsnoc ?_ ?_
      · intro a ha
        rcases List.mem_append.mp ha with ha | ha
        · exact hok a ha
        · rw [List.mem_singleton.mp ha]
      · intro a ha
        rcases List.mem_append.mp ha with ha | ha
        · exact hres a ha
        · rw [List.mem_singleton.mp ha]
          rfl

/-- The shape of every run of `RunStream`: accepted `result` writes followed by one last
write, whose error is the returned one; the last write is the `done` event unless a
`result` write failed. -/
theorem RunStream_log {W : Type} (reg : Registry W) (worlds : Nat → W) (ctx : Context)
    (req : Request) (sched : Schedule) (w : Writer) :
    Faithful w (RunStream reg worlds ctx req sched w).attempts ∧
      ∃ init last, (RunStream reg worlds ctx req sched w).attempts = init ++ [last] ∧
        (∀ a ∈ init, a.err = none ∧ a.value.Event = "result") ∧
        (RunStream reg worlds ctx req sched w).err = last.err ∧
        (last.value = Encoded.bare "done" ∨ (last.value.Event = "result" ∧ last.err ≠ none)) := by
  have hd := drain_log w (resultsCh reg worlds ctx req sched.pickDone 0 sched.order) []
    (by intro k a hk; simp at hk) (by simp) (by simp)
  obtain ⟨hf, hres, hnone, hsome⟩ := hd
  unfold RunStream
  cases hdr : drain w [] (resultsCh reg worlds ctx req sched.pickDone 0 sched.order) with
  | mk log e =>
    rw [hdr] at hf hres hnone hsome
    simp only at hf hres hnone hsome
    cases e with
    | some e =>
      obtain ⟨init, last, hlog, hinit, hlast⟩ := hsome e rfl
      refine ⟨hf, init, last, hlog, ?_, by simp [hlast], Or.inr ⟨?_, by simp [hlast]⟩⟩
      · intro a ha
        exact ⟨hinit a ha, hres a (by rw [hlog]; exact List.mem_append_left _ ha)⟩
      · exact hres last (by rw [hlog]; simp)
    | none =>
      have hsnoc := Faithful.snoc w log (Encoded.bare "done") hf
      have hinit : ∀ a ∈ log, a.err = none ∧ a.value.Event = "result" :=
        fun a ha => ⟨hnone rfl a ha, hres a ha⟩
      cases hw : w (written log) (Encoded.bare "done") with
      | some e' =>
        rw [hw] at hsnoc
        simp only [hw]
        exact ⟨hsnoc, log, _, rfl, hinit, rfl, Or.inl rfl⟩
      | none =>
        rw [hw] at hsnoc
        simp only [hw]
        exact ⟨hsnoc, log, _, rfl, hinit, rfl, Or.inl rfl⟩

/-- C5: for every request, schedule and sink, with `out` the run of `RunStream`:
the error logged for each write is the sink's answer to it; a write that fails is the last
write and its error is the returned error (so nothing is written after it and it is not
attempted again); after a failed `result` write no `done` event is written; and the
returned error is nil exactly when every write succeeded and the `done` event is among
them. -/
theorem RunStream_stops_at_failed_write {W : Type} (reg : Registry W) (worlds : Nat → W)
    (ctx : Context) (req : Request) (sched : Schedule) (w : Writer) :
    Faithful w (RunStream reg worlds ctx req sched w).attempts ∧
      (∀ (k : Nat) (a : WriteAttempt),
        (RunStream reg worlds ctx req sched w).attempts[k]? = some a → a.err ≠ none →
        (RunStream reg worlds ctx req sched w).attempts.length = k + 1 ∧
          (RunStream reg worlds ctx req sched w).err = a.err) ∧
      (∀ a ∈ (RunStream reg worlds ctx req sched w).attempts, a.err ≠ none →
        a.value.Event = "result" →
        ∀ b ∈ (RunStream reg worlds ctx req sched w).attempts, b.value.Event ≠ "done") ∧
      ((RunStream reg worlds ctx req sched w).err = none ↔
        (∀ a ∈ (RunStream reg worlds ctx req sched w).attempts, a.err = none) ∧
          doneWritten ∈ (RunStream reg worlds ctx req sched w).attempts) := by
  obtain ⟨hf, init, last, hlog, hinit, herr, hlast⟩ :=
    RunStream_log reg worlds ctx req sched w
  rw [hlog, herr]
  rw [hlog] at hf
  refine ⟨hf, ?_, ?_, ?_⟩
  · intro k a hk ha
    rcases Nat.lt_trichotomy k init.length with hlt | heq | hgt
    · rw [List.getElem?_append_left hlt] at hk
      exact absurd (hinit a (List.getElem?_mem hk)).1 ha
    · subst heq
      rw [List.getElem?_append_right (Nat.le_refl _)] at hk
      simp only [Nat.sub_self, List.getElem?_cons_zero, Option.some.injEq] at hk
      subst hk
      simp
    · rw [List.getElem?_eq_none_iff.mpr (by simp; omega)] at hk
      exact absurd hk (by simp)
  · intro a ha hfail hresult b hb
    have ha' : a = last := by
      rcases List.mem_append.mp ha with h | h
      · exact absurd (hinit a h).1 hfail
      · exact List.mem_singleton.mp h
    subst ha'
    have hnotdone : a.value ≠ Encoded.bare "done" := by
      intro h
      rw [h] at hresult
      exact absurd hresult (by decide)
    rcases List.mem_append.mp hb with h | h
    · rw [(hinit b h).2]
      decide
    · rw [List.mem_singleton.mp h]
      rcases hlast with h1 | h2
      · exact absurd h1 hnotdone
      · rw [h2.1]
        decide
  · constructor
    · intro hnone
      refine ⟨?_, ?_⟩
      · intro a ha
        rcases List.mem_append.mp ha with h | h
        · exact (hinit a h).1
        · rw [List.mem_singleton.mp h]
          exact hnone
      · rcases hlast with h1 | h2
        · have : last = doneWritten := by
            cases last with
            | mk v e =>
              simp only at h1 hnone
              subst h1
              subst hnone
              rfl
          rw [this]
          simp
        · exact absurd hnone h2.2
    · intro h
      exact h.1 last (by simp)

/-- C5 at the scenario request with a sink that accepts one write only: the second
`result` write fails, it is the last of the two writes, and its error is returned. -/
theorem RunStream_stops_at_failed_write_witness :
    (RunStream stubRegistry (fun _ => ()) Context.background scenarioRequest
        { order := [1, 0], pickDone := fun _ => false } (Writer.failAfter 1)).attempts.length
        = 1 + 1 ∧
      (RunStream stubRegistry (fun _ => ()) Context.background scenarioRequest
        { order := [1, 0], pickDone := fun _ => false } (Writer.failAfter 1)).err
        = some "broken pipe" :=
  (RunStream_stops_at_failed_write stubRegistry (fun _ => ()) Context.background scenarioRequest
    { order := [1, 0], pickDone := fun _ => false } (Writer.failAfter 1)).2.1 1
    { value := Encoded.streamEvent "result"
        { Name := "a", Provider := "stubok", Text := "ok", Error := "" },
      err := some "broken pipe" }
    (by decide) (by decide)

/-! ### Text and error are exclusive -/

/-- The result built by a goroutine of `Run` satisfies `ResultExclusive`. -/
theorem runGoroutine_exclusive {W : Type} (reg : Registry W) (w : W) (ctx : Context)
    (req : Request) (cfg : ModelConfig) :
    ResultExclusive reg w ctx req cfg (runGoroutine reg w ctx req cfg) := by
  unfold ResultExclusive
  cases hp : getProvider reg cfg.Provider with
  | none =>
    have hr : runGoroutine reg w ctx req cfg =
        { Name := cfg.Name, Provider := cfg.Provider, Text := "",
          Error := "unknown provider: " ++ cfg.Provider } := by
      unfold runGoroutine
      simp only [hp]
    rw [hr]
    exact ⟨fun h => h.1 rfl, fun h => absurd rfl h, fun _ => Or.inl rfl⟩
  | some p =>
    cases he : (p w ctx cfg req.Prompt req.Code).err with
    | none =>
      have hr : runGoroutine reg w ctx req cfg =
          { Name := cfg.Name, Provider := cfg.Provider,
            Text := (p w ctx cfg req.Prompt req.Code).text, Error := "" } := by
        unfold runGoroutine
        simp only [hp, he]
      rw [hr]
      exact ⟨fun h => h.2 rfl, fun _ => ⟨p, rfl, he⟩, fun h => absurd rfl h⟩
    | some e =>
      have hr : runGoroutine reg w ctx req cfg =
          { Name := cfg.Name, Provider := cfg.Provider, Text := "", Error := e } := by
        unfold runGoroutine
        simp only [hp, he]
      rw [hr]
      refine ⟨fun h => h.1 rfl, fun h => absurd rfl h, fun _ => Or.inr ⟨p, rfl, ?_⟩⟩
      rw [he]
      exact Option.some_ne_none e

/-- The goroutines of `RunStream` build their result as those of `Run` do. -/
theorem streamGoroutine_eq_runGoroutine {W : Type} (reg : Registry W) (w : W) (ctx : Context)
    (req : Request) (cfg : ModelConfig) :
    streamGoroutine reg w ctx req cfg = runGoroutine reg w ctx req cfg := rfl

/-- Every value received from the channel is the result of one of the request's tasks. -/
theorem resultsCh_mem {W : Type} (reg : Registry W) (worlds : Nat → W) (ctx : Context)
    (req : Request) (pickDone : Nat → Bool) (t : Nat) (order : List Nat) (r : ModelResult)
    (hr : r ∈ resultsCh reg worlds ctx req pickDone t order) :
    ∃ i cfg, req.Models[i]? = some cfg ∧ r = streamGoroutine reg (worlds i) ctx req cfg := by
  induction order generalizing t with
  | nil => simp [resultsCh] at hr
  | cons i rest ih =>
    unfold resultsCh at hr
    cases hm : req.Models[i]? with
    | none =>
      simp only [hm] at hr
      exact ih (t + 1) hr
    | some cfg =>
      simp only [hm] at hr
      split at hr
      · exact ih (t + 1) hr
      · rcases List.mem_cons.mp hr with h | h
        · exact ⟨i, cfg, hm, h⟩
        · exact ih (t + 1) h

/-- Every write of the loop that is not already in the log is a `result` event carrying a
value received from the channel. -/
theorem drain_mem (w : Writer) (rs : List ModelResult) (log : List WriteAttempt)
    (a : WriteAttempt) (ha : a ∈ (drain w log rs).1) :
    a ∈ log ∨ ∃ r ∈ rs, a.value = Encoded.streamEvent "result" r := by
  induction rs generalizing log with
  | nil =>
    simp only [drain] at ha
    exact Or.inl ha
  | cons r rest ih =>
    unfold drain at ha
    simp only at ha
    split at ha
    · rcases List.mem_append.mp ha with h | h
      · exact Or.inl h
      · rw [List.mem_singleton.mp h]
        exact Or.inr ⟨r, List.mem_cons_self r rest, rfl⟩
    · rcases ih _ ha with h | ⟨r', hr', hv⟩
      · rcases List.mem_append.mp h with h | h
        · exact Or.inl h
        · rw [List.mem_singleton.mp h]
          exact Or.inr ⟨r, List.mem_cons_self r rest, rfl⟩
      · exact Or.inr ⟨r', List.mem_cons_of_mem r hr', hv⟩

/-- Every write of `RunStream` is the `done` event or a `result` event carrying a value
received from the channel. -/
theorem RunStream_mem {W : Type} (reg : Registry W) (worlds : Nat → W) (ctx : Context)
    (req : Request) (sched : Schedule) (w : Writer) (a : WriteAttempt)
    (ha : a ∈ (RunStream reg worlds ctx req sched w).attempts) :
    a.value = Encoded.bare "done" ∨
      ∃ r ∈ resultsCh reg worlds ctx req sched.pickDone 0 sched.order,
        a.value = Encoded.streamEvent "result" r := by
  unfold RunStream at ha
  have hd := drain_mem w (resultsCh reg worlds ctx req sched.pickDone 0 sched.order) [] a
  cases hdr : drain w [] (resultsCh reg worlds ctx req sched.pickDone 0 sched.order) with
  | mk log e =>
    rw [hdr] at ha hd
    simp only [List.not_mem_nil, false_or] at hd
    cases e with
    | some e => exact Or.inr (hd ha)
    | none =>
      simp only at ha
      split at ha
      · rcases List.mem_append.mp ha with h | h
        · exact Or.inr (hd h)
        · rw [List.mem_singleton.mp h]
          exact Or.inl rfl
      · rcases List.mem_append.mp ha with h | h
        · exact Or.inr (hd h)
        · rw [List.mem_singleton.mp h]
          exact Or.inl rfl

/-- C6: for every request and provider behaviour, every result in the response of `Run`
and every result carried by an event that `RunStream` writes belongs to one of the
configured models and satisfies `ResultExclusive` for it: text and error are never both
populated, the text is non-empty only if the provider was resolved and its call returned
no error, and the error is non-empty only if the provider was unresolved or its call
failed. -/
theorem results_text_error_exclusive {W : Type} (reg : Registry W) (worlds : Nat → W)
    (ctx : Context) (req : Request) (order : List Nat) (sched : Schedule) (w : Writer)
    (hperm : order.Perm (List.range req.Models.length)) :
    (∀ (i : Nat) (r : ModelResult), (Run reg worlds ctx req order).Results[i]? = some r →
        ∃ cfg, req.Models[i]? = some cfg ∧ ResultExclusive reg (worlds i) ctx req cfg r) ∧
      (∀ a ∈ (RunStream reg worlds ctx req sched w).attempts, ∀ r, a.value.result = some r →
        ∃ i cfg, req.Models[i]? = some cfg ∧ ResultExclusive reg (worlds i) ctx req cfg r) := by
  constructor
  · intro i r hr
    rw [Run_getElem? reg worlds ctx req order hperm i] at hr
    cases hm : req.Models[i]? with
    | none => simp [hm] at hr
    | some cfg =>
      simp only [hm, Option.map_some', Option.some.injEq] at hr
      subst hr
      exact ⟨cfg, rfl, runGoroutine_exclusive reg (worlds i) ctx req cfg⟩
  · intro a ha r hr
    rcases RunStream_mem reg worlds ctx req sched w a ha with h | ⟨r', hr', hv⟩
    · rw [h] at hr
      simp [Encoded.result] at hr
    · rw [hv] at hr
      simp only [Encoded.result, Option.some.injEq] at hr
      subst hr
      obtain ⟨i, cfg, hm, heq⟩ := resultsCh_mem reg worlds ctx req sched.pickDone 0 sched.order r' hr'
      refine ⟨i, cfg, hm, ?_⟩
      rw [heq, streamGoroutine_eq_runGoroutine]
      exact runGoroutine_exclusive reg (worlds i) ctx req cfg

/-- C6 at the scenario request: the slot of the unknown provider has an error and no text. -/
theorem results_text_error_exclusive_witness :
    ∃ cfg, scenarioRequest.Models[1]? = some cfg ∧
      ResultExclusive stubRegistry () Context.background scenarioRequest cfg
        { Name := "b", Provider := "unknown", Text := "", Error := "unknown provider: unknown" } :=
  (results_text_error_exclusive stubRegistry (fun _ => ()) Context.background scenarioRequest
    [1, 0] { order := [1, 0], pickDone := fun _ => false } Writer.buffer (by decide)).1 1
    { Name := "b", Provider := "unknown", Text := "", Error := "unknown provider: unknown" }
    (by decide)

/-! ### The providers: interpreting the envelope -/

/-- Below the overflow threshold the duration is the requested number of seconds, or 30
seconds for a non-positive request, and it is positive. -/
theorem mainTimeout_in_range (req : Request) (hmax : req.TimeoutSeconds ≤ 9223372036) :
    mainTimeout req =
        (if req.TimeoutSeconds ≤ 0 then 30 else req.TimeoutSeconds) * 1000000000 ∧
      0 < mainTimeout req := by
  unfold mainTimeout wrapInt64 Second
  by_cases h : req.TimeoutSeconds ≤ 0
  · simp only [h, if_true]
    constructor <;> omega
  · simp only [h, if_false]
    have hlo : 0 ≤ req.TimeoutSeconds * 1000000000 + 9223372036854775808 := by omega
    have hhi : req.TimeoutSeconds * 1000000000 + 9223372036854775808 < 18446744073709551616 := by
      omega
    rw [Int.emod_eq_of_lt hlo hhi]
    constructor <;> omega

/-- From the overflow threshold on, the duration is never the requested number of seconds. -/
theorem mainTimeout_overflows (req : Request) (hmin : 9223372037 ≤ req.TimeoutSeconds) :
    mainTimeout req ≠ req.TimeoutSeconds * 1000000000 := by
  unfold mainTimeout wrapInt64 Second
  have h : ¬ req.TimeoutSeconds ≤ 0 := by omega
  simp only [h, if_false]
  omega

/-- C11, at a failing input: for `timeout_seconds = 9223372037`, a value of a 64-bit `int`,
the product with `time.Second` wraps around, and the duration handed to `WithTimeout` is
negative instead of 9223372037 seconds; for `timeout_seconds = 18446744074` it is positive
but only 290448384 nanoseconds. -/
theorem mainTimeout_wraps_around :
    isInt64 9223372037 ∧
      mainTimeout (Request.withTimeout 9223372037) = -9223372036709551616 ∧
      ¬ 0 < mainTimeout (Request.withTimeout 9223372037) ∧
      mainTimeout (Request.withTimeout 9223372037) ≠ 9223372037 * 1000000000 ∧
      isInt64 18446744074 ∧
      mainTimeout (Request.withTimeout 18446744074) = 290448384 := by
  unfold isInt64
  decide

end Orch
